import Mathlib

/-
Shallow embedding of the go-kit style JSON-RPC HTTP transport
(package transport/http/jsonrpc): the envelope data model, the error
taxonomy (error.go), the per-method pipeline (service.go, Service.ServeJSONRPC)
and the HTTP dispatcher (Server.ServeHTTP with DefaultErrorEncoder).

Modelling conventions:
- Machine strings and raw JSON bytes are Lean String values
  (json.RawMessage becomes RawMessage := String).
- http.Header is a mutable map from header name to values; every access in
  the embedded code goes through Set/Get, which canonicalize the key the same
  way on both paths, so a plain association list with a replacing set
  operation is an adequate embedding. A Go hook has signature
  func(ctx, header) ctx and may mutate the passed header map in place; a hook
  call is therefore embedded as returning both the new context and the
  post-call state of the map.
- An error interface value is embedded as ErrVal: its Error() string, and
  two optional capabilities that record whether the dynamic type method set
  contains ErrorCode() (ErrorCoder) and Headers() (Headerer). Go method-set
  rules apply: a method declared with a pointer receiver is not in the method
  set of the value type, so an error passed by value does not expose such a
  capability.
- Effectful stages are recorded in an event trace: each Ev value marks one
  execution of the corresponding statement of the source (a decode call, an
  endpoint call, reaching the after-hook loop, an encode call, one
  s.logger.Log("err", err) invocation with the logged error).
-/

namespace KitJsonRpc

/-! ## Headers (http.Header) -/

abbrev Headers := List (String × String)

def emptyHeaders : Headers := []

/-- http.Header.Set: replaces any existing values for the key. -/
def hdrSet (h : Headers) (k v : String) : Headers :=
  (k, v) :: h.filter (fun p => p.1 != k)

/-- http.Header.Get: first value associated with the key, if any. -/
def hdrGet (h : Headers) (k : String) : Option String :=
  (h.find? (fun p => p.1 == k)).map Prod.snd

/-- The copy loop of DefaultErrorEncoder:
for k in range headerer.Headers(), dst.Set(k, headerer.Headers().Get(k)).
Go Get returns the empty string when the key is absent. -/
def copyHeaders (dst src : Headers) : Headers :=
  src.foldl (fun acc kv => hdrSet acc kv.1 ((hdrGet src kv.1).getD "")) dst

/-! ## Context (context.Context) -/

/-- A request-scoped context: the header value stored by HeaderNewContext,
plus generic context.WithValue entries (used by hooks in the tests). -/
structure Ctx where
  headerCtx : Option Headers := none
  vals : List (String × Nat) := []
deriving DecidableEq

/-- context.WithValue. -/
def Ctx.withValue (c : Ctx) (k : String) (v : Nat) : Ctx :=
  { c with vals := (k, v) :: c.vals }

/-- ctx.Value. -/
def Ctx.value (c : Ctx) (k : String) : Option Nat :=
  (c.vals.find? (fun p => p.1 == k)).map Prod.snd

/-- Modelled from the spec: the helper that captures the inbound header set
into the request context (referenced as HeaderNewContext by the dispatcher;
its definition is not among the given files). -/
def HeaderNewContext (c : Ctx) (h : Headers) : Ctx :=
  { c with headerCtx := some h }

/-- Modelled from the spec: the helper that fetches the inbound header set
from the request context, reporting absence (referenced as HeaderFromContext
by the pipeline; its definition is not among the given files). -/
def HeaderFromContext (c : Ctx) : Option Headers :=
  c.headerCtx

/-! ## Error taxonomy (error.go) -/

abbrev RawMessage := String

def ParseError : Int := -32700
def InvalidRequestError : Int := -32600
def MethodNotFoundError : Int := -32601
def InvalidParamsError : Int := -32602
def InternalError : Int := -32603

/-- ErrorMessage returns a message for the JSON RPC error code; the empty
string if the code is unknown (Go map lookup default). -/
def ErrorMessage (code : Int) : String :=
  if code = ParseError then "An error occurred on the server while parsing the JSON text."
  else if code = InvalidRequestError then "The JSON sent is not a valid Request object."
  else if code = MethodNotFoundError then "The method does not exist / is not available."
  else if code = InvalidParamsError then "Invalid method parameter(s)."
  else if code = InternalError then "Internal JSON-RPC error."
  else ""

/-- The wire Error object of error.go. -/
structure Error where
  code : Int
  message : String
  data : Option String := none
deriving DecidableEq

/-- A Go error interface value, with its optional capabilities:
errorCode is some c exactly when the dynamic type method set contains
ErrorCode() int (the ErrorCoder capability), and headers is some hs exactly
when it contains Headers() http.Header (the Headerer capability). -/
structure ErrVal where
  msg : String
  errorCode : Option Int := none
  headers : Option Headers := none
deriving DecidableEq

/-- The interface value invalidRequestError{} as passed by Server.ServeHTTP.
Error() is declared on the value receiver, so msg is
ErrorMessage InvalidRequestError; ErrorCode() is declared on the pointer
receiver *invalidRequestError, so it is NOT in the method set of the value
and the ErrorCoder assertion in DefaultErrorEncoder fails: errorCode = none. -/
def invalidRequestErrVal : ErrVal :=
  { msg := ErrorMessage InvalidRequestError }

/-- The interface value methodNotFoundError(msg): both Error() and
ErrorCode() are declared on the value receiver, so the value exposes the
ErrorCoder capability with code MethodNotFoundError. -/
def methodNotFoundErrVal (msg : String) : ErrVal :=
  { msg := msg, errorCode := some MethodNotFoundError }

/-! ## Envelope data model -/

/-- A JSON-RPC request id: string, number or null/absent (absent = none in
the enclosing Option). -/
inductive ReqId where
  | str (s : String)
  | num (n : Int)
deriving DecidableEq

/-- Modelled from the spec: the Request envelope struct used by the
dispatcher (jsonrpc, method, params raw bytes, id); its declaration is not
among the given files. Go zero values are the field defaults. -/
structure Request where
  jsonrpc : String := ""
  method : String := ""
  params : RawMessage := ""
  id : Option ReqId := none
deriving DecidableEq

/-- Modelled from the spec: the Response envelope struct (jsonrpc, result,
error, id, plus the RespHeaders field assigned by the dispatcher success
path); its declaration is not among the given files. A field left at its
default (Go zero value) is absent on the wire. -/
structure Response where
  jsonrpc : String := ""
  result : Option RawMessage := none
  error : Option Error := none
  id : Option ReqId := none
  respHeaders : Option Headers := none
deriving DecidableEq

/-- Modelled from the spec: the JSON-RPC version constant written into every
envelope. -/
def Version : String := "2.0"

/-- Modelled from the spec: the Content-Type value the encoder sets (the
exact string is not fixed by the spec and no property depends on it). -/
def ContentType : String := "application/json; charset=utf-8"

/-! ## HTTP request/response surface -/

/-- What one request writes to the http.ResponseWriter: either a plain-text
body or a serialized JSON-RPC response envelope. -/
inductive HttpBody where
  | text (s : String)
  | json (res : Response)
deriving DecidableEq

structure HttpResp where
  status : Nat
  headers : Headers
  body : HttpBody
deriving DecidableEq

/-- An inbound http.Request: verb, headers, the request context, and the
outcome of decoding the body bytes as a Request envelope with encoding/json
(an external codec): none embeds a body on which json Decode fails. -/
structure HttpReq where
  method : String
  header : Headers := []
  ctx : Ctx := {}
  body : Option Request := none

/-! ## Hooks and the method service (service.go) -/

/-- A before/after hook func(ctx, header) ctx; the Headers component of the
result is the state of the (mutable) header map after the call. -/
abbrev Hook := Ctx → Headers → Ctx × Headers

/-- The hook loops of ServeJSONRPC: ctx = f(ctx, headers) in order, the
header map shared (and possibly mutated) across the calls. -/
def runHooks (hooks : List Hook) (ch : Ctx × Headers) : Ctx × Headers :=
  hooks.foldl (fun p f => f p.1 p.2) ch

/-- A go-kit log.Logger as used at the single call site
s.logger.Log("err", err): the keyval pairs the logger records for that
call. -/
abbrev Logger := ErrVal → List (String × String)

/-- Modelled from the spec: log.NewNopLogger(), the default of NewService
("By default, no errors are logged"): records nothing. -/
def NopLogger : Logger := fun _ => []

/-- Execution events of one pipeline/dispatch run, marking which statements
of the source ran: a s.dec call, a s.e call, reaching the after-hook loop,
a s.enc call, and one s.logger.Log("err", err) invocation. -/
inductive Ev where
  | decodeCall
  | endpointCall
  | afterStage
  | encodeCall
  | logCall (e : ErrVal)
deriving DecidableEq

/-- The three return values of Service.ServeJSONRPC
(interface{}, http.Header, error); Go nil is none. -/
structure ServeRet where
  resp : Option RawMessage := none
  respHeaders : Option Headers := none
  err : Option ErrVal := none
deriving DecidableEq

/-- The per-method service of service.go: endpoint, decode, encode,
before/after hooks, logger. The domain request type is a and the domain
response type is b (interface{} values in Go). -/
structure Service (a b : Type) where
  e : Ctx → a → Except ErrVal b
  dec : Ctx → RawMessage → Except ErrVal a
  enc : Ctx → b → Except ErrVal RawMessage
  before : List Hook := []
  after : List Hook := []
  logger : Logger := NopLogger

abbrev ServiceOption (a b : Type) := Service a b → Service a b

/-- NewService: defaults (no hooks, nop logger), then the options applied
in order. -/
def NewService {a b : Type} (e : Ctx → a → Except ErrVal b)
    (dec : Ctx → RawMessage → Except ErrVal a)
    (enc : Ctx → b → Except ErrVal RawMessage)
    (options : List (ServiceOption a b)) : Service a b :=
  options.foldl (fun s o => o s)
    { e := e, dec := dec, enc := enc, before := [], after := [], logger := NopLogger }

/-- ServiceBefore appends to the before-hook list. -/
def ServiceBefore {a b : Type} (before : List Hook) : ServiceOption a b :=
  fun s => { s with before := s.before ++ before }

/-- ServiceAfter appends to the after-hook list. -/
def ServiceAfter {a b : Type} (after : List Hook) : ServiceOption a b :=
  fun s => { s with after := s.after ++ after }

/-- ServiceErrorLogger replaces the logger. -/
def ServiceErrorLogger {a b : Type} (l : Logger) : ServiceOption a b :=
  fun s => { s with logger := l }

/-- Service.ServeJSONRPC of service.go, with its execution trace:
fetch inbound headers from the context (empty if absent), run before-hooks
threading ctx (and the shared header map), decode, invoke, run after-hooks
against a fresh header map, encode; every failing stage logs once and
returns nil, nil, err. -/
def ServeJSONRPC {a b : Type} (s : Service a b) (ctx : Ctx) (params : RawMessage) :
    ServeRet × List Ev :=
  let reqHeaders : Headers := (HeaderFromContext ctx).getD emptyHeaders
  let bc := runHooks s.before (ctx, reqHeaders)
  match s.dec bc.1 params with
  | .error err => ({ err := some err }, [.decodeCall, .logCall err])
  | .ok request =>
    match s.e bc.1 request with
    | .error err => ({ err := some err }, [.decodeCall, .endpointCall, .logCall err])
    | .ok response =>
      let ar := runHooks s.after (bc.1, emptyHeaders)
      match s.enc ar.1 response with
      | .error err =>
          ({ err := some err },
           [.decodeCall, .endpointCall, .afterStage, .encodeCall, .logCall err])
      | .ok paramsResp =>
          ({ resp := some paramsResp, respHeaders := some ar.2 },
           [.decodeCall, .endpointCall, .afterStage, .encodeCall])

/-- The context in which the decode and invoke stages run: the request
context after header capture, transformed by the before-hooks. -/
def beforeCtx {a b : Type} (s : Service a b) (ctx : Ctx) : Ctx :=
  (runHooks s.before (ctx, (HeaderFromContext ctx).getD emptyHeaders)).1

/-- The context/outbound-header pair after the after-hook loop, which runs
against a fresh (empty) outbound header set. -/
def afterState {a b : Type} (s : Service a b) (ctx : Ctx) : Ctx × Headers :=
  runHooks s.after (beforeCtx s ctx, emptyHeaders)

/-! ## Dispatcher (Server.ServeHTTP) and DefaultErrorEncoder -/

/-- DefaultErrorEncoder: set Content-Type, copy any Headerer headers, build
an Error with code InternalError unless the value exposes ErrorCoder (then
its reported code), write status 200 and the envelope with only the error
field populated. -/
def DefaultErrorEncoder (_ctx : Ctx) (err : ErrVal) : HttpResp :=
  let w0 := hdrSet emptyHeaders "Content-Type" ContentType
  let w1 := match err.headers with
    | some hh => copyHeaders w0 hh
    | none => w0
  let e0 : Error := { code := InternalError, message := err.msg }
  let e1 := match err.errorCode with
    | some c => { e0 with code := c }
    | none => e0
  { status := 200, headers := w1,
    body := .json { jsonrpc := Version, error := some e1 } }

/-- Modelled from the spec: the external transport helper
EncodeJSONResponse used by the success path; it writes the serialized
envelope with the encoder content type and HTTP status 200. -/
def EncodeJSONResponse (_ctx : Ctx) (res : Response) : HttpResp :=
  { status := 200, headers := hdrSet emptyHeaders "Content-Type" ContentType,
    body := .json res }

/-- The server: the method registry (a name-keyed map, embedded as an
association list with unique keys) and the pluggable error encoder. -/
structure Server (a b : Type) where
  sm : List (String × Service a b)
  errorEncoder : Ctx → ErrVal → HttpResp

abbrev ServerOption (a b : Type) := Server a b → Server a b

/-- ServerErrorEncoder replaces the error encoder. -/
def ServerErrorEncoder {a b : Type} (ee : Ctx → ErrVal → HttpResp) : ServerOption a b :=
  fun s => { s with errorEncoder := ee }

/-- NewServer: DefaultErrorEncoder unless overridden by an option. -/
def NewServer {a b : Type} (sm : List (String × Service a b))
    (options : List (ServerOption a b)) : Server a b :=
  options.foldl (fun s o => o s) { sm := sm, errorEncoder := DefaultErrorEncoder }

/-- ServiceMap lookup (Go map indexing with ok flag). -/
def smLookup {a b : Type} (sm : List (String × Service a b)) (m : String) :
    Option (Service a b) :=
  (sm.find? (fun p => p.1 == m)).map Prod.snd

/-- The context ServeHTTP builds before dispatching: the request context
with the inbound headers captured into it. -/
def reqCtx (r : HttpReq) : Ctx :=
  HeaderNewContext r.ctx r.header

/-- Server.ServeHTTP: reject non-POST with plain-text 405; on envelope
decode failure invoke the error encoder with invalidRequestError{}; on
registry miss invoke it with methodNotFoundError("Method m was not
found."); on pipeline failure invoke it with the propagated error; on
success write the envelope with JSONRPC, Result and RespHeaders set. The
second component is the pipeline event trace of the request. -/
def ServeHTTP {a b : Type} (s : Server a b) (r : HttpReq) : HttpResp × List Ev :=
  if r.method ≠ "POST" then
    ({ status := 405,
       headers := hdrSet emptyHeaders "Content-Type" "text/plain; charset=utf-8",
       body := .text "405 must POST\n" }, [])
  else
    let ctx := reqCtx r
    match r.body with
    | none => (s.errorEncoder ctx invalidRequestErrVal, [])
    | some req =>
      match smLookup s.sm req.method with
      | none =>
          (s.errorEncoder ctx
            (methodNotFoundErrVal ("Method " ++ req.method ++ " was not found.")), [])
      | some srv =>
        let out := ServeJSONRPC srv ctx req.params
        match out.1.err with
        | some e => (s.errorEncoder ctx e, out.2)
        | none =>
            (EncodeJSONResponse ctx
              { jsonrpc := Version, result := out.1.resp, respHeaders := out.1.respHeaders },
             out.2)

/-- Whether the whole POST pipeline of a request succeeds against a given
registry: envelope decoded, method found, and ServeJSONRPC without error. -/
def pipelineSucceeds {a b : Type} (sm : List (String × Service a b)) (r : HttpReq) : Bool :=
  match r.body with
  | none => false
  | some req =>
    match smLookup sm req.method with
    | none => false
    | some srv => ((ServeJSONRPC srv (reqCtx r) req.params).1.err).isNone

/-! ## Concrete fixtures (mirroring the test scenarios of the repo) -/

/-- A plain failure value, as errors.New("oof") in the tests: no optional
capability. -/
def oof : ErrVal := { msg := "oof" }

/-- A service with nop endpoint, nopDecoder and nopEncoder, as in the
tests. -/
def svcOk : Service Unit Unit :=
  { e := fun _ _ => .ok (), dec := fun _ _ => .ok (), enc := fun _ _ => .ok "[]" }

/-- svcOk with an always-failing decoder. -/
def svcDecFail : Service Unit Unit :=
  { svcOk with dec := fun _ _ => .error oof }

/-- svcOk with an after-hook that sets an outbound header and an
always-failing encoder. -/
def svcEncFail : Service Unit Unit :=
  { svcOk with after := [fun c h => (c, hdrSet h "X-Out" "1")], enc := fun _ _ => .error oof }

/-- svcOk with an after-hook that sets an outbound header. -/
def svcHdr : Service Unit Unit :=
  { svcOk with after := [fun c h => (c, hdrSet h "X-Out" "1")] }

/-- The request envelope of the test body
jsonrpc 2.0, method add, params raw bytes, id 1. -/
def addReq : Request :=
  { jsonrpc := "2.0", method := "add", params := "[3, 2]", id := some (ReqId.num 1) }

/-- A POST carrying the add envelope. -/
def postAdd : HttpReq := { method := "POST", body := some addReq }

/-- A POST whose body fails JSON envelope decoding. -/
def postBad : HttpReq := { method := "POST", body := none }

/-- A GET request. -/
def getReq : HttpReq := { method := "GET" }

def smOk : List (String × Service Unit Unit) := [("add", svcOk)]

def smEncFail : List (String × Service Unit Unit) := [("add", svcEncFail)]

/-- The success envelope the server writes for postAdd against smOk. -/
def okEnv : Response :=
  { jsonrpc := Version, result := some "[]", respHeaders := some emptyHeaders }

/-- A before-hook that stores the value 1 under the key "one"
(context.WithValue), as in the multiple-ServiceBefore test. -/
def hookSet1 : Hook := fun c h => (c.withValue "one" 1, h)

/-- A hook that changes nothing. -/
def hookNop : Hook := fun c h => (c, h)

/-- An error exposing both optional capabilities. -/
def errCoded : ErrVal :=
  { msg := "teapot", errorCode := some 418, headers := some [("X-Debug", "1")] }

/-! ## Header map lemmas -/

theorem hdrGet_set_self (h : Headers) (k v : String) :
    hdrGet (hdrSet h k v) k = some v := by
  unfold hdrGet hdrSet
  simp only [List.find?, beq_self_eq_true]
  rfl

theorem find?_filter_ne (h : Headers) (k k2 : String) (ne : k2 ≠ k) :
    (h.filter (fun p => p.1 != k)).find? (fun p => p.1 == k2) =
      h.find? (fun p => p.1 == k2) := by
  induction h with
  | nil => rfl
  | cons q t ih =>
    by_cases hq : q.1 = k
    · have hb : (q.1 != k) = false := by simp [hq]
      have h2 : (q.1 == k2) = false := by
        rw [hq]
        simp
        exact fun e => ne e.symm
      simp only [List.filter_cons, hb, Bool.false_eq_true, if_false, List.find?, h2, ih]
    · have hb : (q.1 != k) = true := by simp [hq]
      by_cases hq2 : q.1 = k2
      · have h2 : (q.1 == k2) = true := by simp [hq2]
        simp only [List.filter_cons, hb, if_true, List.find?, h2]
      · have h2 : (q.1 == k2) = false := by simp [hq2]
        simp only [List.filter_cons, hb, if_true, List.find?, h2, ih]

theorem hdrGet_set_ne (h : Headers) (k v k2 : String) (ne : k2 ≠ k) :
    hdrGet (hdrSet h k v) k2 = hdrGet h k2 := by
  unfold hdrGet hdrSet
  have h2 : (k == k2) = false := by
    simp
    exact fun e => ne e.symm
  simp only [List.find?, h2, find?_filter_ne h k k2 ne]

theorem hdrGet_of_mem_nodup (src : Headers) (p : String × String)
    (hp : p ∈ src) (nd : (src.map Prod.fst).Nodup) : hdrGet src p.1 = some p.2 := by
  induction src with
  | nil => cases hp
  | cons q t ih =>
    rw [List.map_cons, List.nodup_cons] at nd
    rcases List.mem_cons.mp hp with h | h
    · subst h
      unfold hdrGet
      simp only [List.find?, beq_self_eq_true]
      rfl
    · have hne : (q.1 == p.1) = false := by
        simp
        intro e
        exact nd.1 (by rw [e]; exact List.mem_map_of_mem Prod.fst h)
      unfold hdrGet at ih ⊢
      simp only [List.find?, hne]
      exact ih h nd.2

theorem hdrGet_foldlSet_not_mem (rest : Headers) (acc : Headers) (k : String)
    (hk : k ∉ rest.map Prod.fst) :
    hdrGet (rest.foldl (fun acc2 kv => hdrSet acc2 kv.1 kv.2) acc) k = hdrGet acc k := by
  induction rest generalizing acc with
  | nil => rfl
  | cons q t ih =>
    rw [List.map_cons] at hk
    have h1 : k ∉ t.map Prod.fst := fun m => hk (List.mem_cons_of_mem _ m)
    have h2 : k ≠ q.1 := fun e => hk (by rw [e]; exact List.mem_cons_self _ _)
    rw [List.foldl_cons, ih _ h1, hdrGet_set_ne _ _ _ _ h2]

theorem hdrGet_foldlSet_mem (src : Headers) (acc : Headers) (p : String × String)
    (hp : p ∈ src) (nd : (src.map Prod.fst).Nodup) :
    hdrGet (src.foldl (fun acc2 kv => hdrSet acc2 kv.1 kv.2) acc) p.1 = some p.2 := by
  induction src generalizing acc with
  | nil => cases hp
  | cons q t ih =>
    rw [List.map_cons, List.nodup_cons] at nd
    rw [List.foldl_cons]
    rcases List.mem_cons.mp hp with h | h
    · subst h
      rw [hdrGet_foldlSet_not_mem t _ p.1 nd.1, hdrGet_set_self]
    · exact ih _ h nd.2

theorem foldl_congr_mem {g d : Type} (l : List g) (f f2 : d → g → d)
    (hfg : ∀ acc x, x ∈ l → f acc x = f2 acc x) (acc : d) :
    l.foldl f acc = l.foldl f2 acc := by
  induction l generalizing acc with
  | nil => rfl
  | cons q t ih =>
    rw [List.foldl_cons, List.foldl_cons, hfg _ _ (List.mem_cons_self _ _)]
    exact ih (fun acc2 x hx => hfg acc2 x (List.mem_cons_of_mem _ hx)) _

theorem copyHeaders_get (dst src : Headers) (p : String × String)
    (hp : p ∈ src) (nd : (src.map Prod.fst).Nodup) :
    hdrGet (copyHeaders dst src) p.1 = some p.2 := by
  unfold copyHeaders
  rw [foldl_congr_mem src _ (fun acc2 kv => hdrSet acc2 kv.1 kv.2)
      (fun acc2 kv hkv => by rw [hdrGet_of_mem_nodup src kv hkv nd]; rfl) dst]
  exact hdrGet_foldlSet_mem src dst p hp nd

/-! ## Hook fold lemma -/

theorem runHooks_take_succ (hooks : List Hook) (i : Nat) (hi : i < hooks.length)
    (ch : Ctx × Headers) :
    runHooks (hooks.take (i+1)) ch =
      hooks.get ⟨i, hi⟩ (runHooks (hooks.take i) ch).1 (runHooks (hooks.take i) ch).2 := by
  unfold runHooks
  rw [List.take_succ, List.foldl_append]
  have hg : hooks[i]? = some (hooks.get ⟨i, hi⟩) := by
    simp [List.getElem?_eq_getElem hi]
  rw [hg]
  rfl

/-! ## Equation and shape lemmas for the pipeline and dispatcher -/

theorem serveJSONRPC_eq {a b : Type} (s : Service a b) (ctx : Ctx) (params : RawMessage) :
    ServeJSONRPC s ctx params =
      (match s.dec (beforeCtx s ctx) params with
       | .error err => ({ err := some err }, [.decodeCall, .logCall err])
       | .ok request =>
         match s.e (beforeCtx s ctx) request with
         | .error err => ({ err := some err }, [.decodeCall, .endpointCall, .logCall err])
         | .ok response =>
           match s.enc (afterState s ctx).1 response with
           | .error err =>
               ({ err := some err },
                [.decodeCall, .endpointCall, .afterStage, .encodeCall, .logCall err])
           | .ok paramsResp =>
               ({ resp := some paramsResp, respHeaders := some (afterState s ctx).2 },
                [.decodeCall, .endpointCall, .afterStage, .encodeCall])) := rfl

theorem serveHTTP_not_post {a b : Type} (s : Server a b) (r : HttpReq)
    (hm : r.method ≠ "POST") :
    ServeHTTP s r =
      ({ status := 405,
         headers := hdrSet emptyHeaders "Content-Type" "text/plain; charset=utf-8",
         body := .text "405 must POST\n" }, []) := by
  unfold ServeHTTP
  rw [if_pos hm]

theorem serveHTTP_post_eq {a b : Type} (s : Server a b) (r : HttpReq)
    (hm : r.method = "POST") :
    ServeHTTP s r =
      (match r.body with
       | none => (s.errorEncoder (reqCtx r) invalidRequestErrVal, ([] : List Ev))
       | some req =>
         match smLookup s.sm req.method with
         | none =>
             (s.errorEncoder (reqCtx r)
               (methodNotFoundErrVal ("Method " ++ req.method ++ " was not found.")), [])
         | some srv =>
           match (ServeJSONRPC srv (reqCtx r) req.params).1.err with
           | some e =>
               (s.errorEncoder (reqCtx r) e, (ServeJSONRPC srv (reqCtx r) req.params).2)
           | none =>
               (EncodeJSONResponse (reqCtx r)
                 { jsonrpc := Version,
                   result := (ServeJSONRPC srv (reqCtx r) req.params).1.resp,
                   respHeaders := (ServeJSONRPC srv (reqCtx r) req.params).1.respHeaders },
                (ServeJSONRPC srv (reqCtx r) req.params).2)) := by
  unfold ServeHTTP
  rw [if_neg (by simp [hm])]

theorem defaultErrorEncoder_eq (ctx : Ctx) (err : ErrVal) :
    DefaultErrorEncoder ctx err =
      { status := 200,
        headers :=
          (match err.headers with
           | some hh => copyHeaders (hdrSet emptyHeaders "Content-Type" ContentType) hh
           | none => hdrSet emptyHeaders "Content-Type" ContentType),
        body := HttpBody.json
          { jsonrpc := Version,
            error := some { code := err.errorCode.getD InternalError, message := err.msg } } } := by
  unfold DefaultErrorEncoder
  cases hc : err.errorCode <;> rfl

theorem except_cases {e r : Type} (x : Except e r) :
    (∃ v, x = .error v) ∨ (∃ v, x = .ok v) := by
  cases x
  · exact Or.inl ⟨_, rfl⟩
  · exact Or.inr ⟨_, rfl⟩

theorem serveJSONRPC_ok_shape {a b : Type} (s : Service a b) (ctx : Ctx)
    (params : RawMessage)
    (h : (ServeJSONRPC s ctx params).1.err = none) :
    ∃ p, (ServeJSONRPC s ctx params).1 =
      { resp := some p, respHeaders := some (afterState s ctx).2, err := none } := by
  rw [serveJSONRPC_eq] at h ⊢
  rcases except_cases (s.dec (beforeCtx s ctx) params) with ⟨e2, hd⟩ | ⟨req, hd⟩
  · simp only [hd] at h
    cases h
  · simp only [hd] at h ⊢
    rcases except_cases (s.e (beforeCtx s ctx) req) with ⟨e2, he⟩ | ⟨resp, he⟩
    · simp only [he] at h
      cases h
    · simp only [he] at h ⊢
      rcases except_cases (s.enc (afterState s ctx).1 resp) with ⟨e2, hc⟩ | ⟨p, hc⟩
      · simp only [hc] at h
        cases h
      · simp only [hc]
        exact ⟨p, rfl⟩

theorem serveJSONRPC_err_shape {a b : Type} (s : Service a b) (ctx : Ctx)
    (params : RawMessage) (e : ErrVal)
    (h : (ServeJSONRPC s ctx params).1.err = some e) :
    (ServeJSONRPC s ctx params).1 = { err := some e } := by
  rw [serveJSONRPC_eq] at h ⊢
  rcases except_cases (s.dec (beforeCtx s ctx) params) with ⟨e2, hd⟩ | ⟨req, hd⟩
  · simp only [hd] at h ⊢
    rw [← Option.some.inj h]
  · simp only [hd] at h ⊢
    rcases except_cases (s.e (beforeCtx s ctx) req) with ⟨e2, he⟩ | ⟨resp, he⟩
    · simp only [he] at h ⊢
      rw [← Option.some.inj h]
    · simp only [he] at h ⊢
      rcases except_cases (s.enc (afterState s ctx).1 resp) with ⟨e2, hc⟩ | ⟨p, hc⟩
      · simp only [hc] at h ⊢
        rw [← Option.some.inj h]
      · simp only [hc] at h
        cases h

/-! ## Claim theorems -/

/-- Claim C1, settled against the code: for a POST whose body fails JSON
envelope decoding, the server with the default error encoder writes HTTP
status 200 but an error code of InternalError (-32603), not the claimed
InvalidRequestError (-32600): ServeHTTP passes invalidRequestError{} by
value while its ErrorCode method is declared on the pointer receiver, so
the ErrorCoder capability check in DefaultErrorEncoder fails. -/
theorem c1_malformed_body_gets_internal_error_code :
    (ServeHTTP (NewServer smOk []) postBad).1.status = 200 ∧
    (ServeHTTP (NewServer smOk []) postBad).1.body =
      HttpBody.json
        { jsonrpc := Version,
          error := some { code := InternalError,
                          message := ErrorMessage InvalidRequestError } } ∧
    InternalError ≠ InvalidRequestError :=
  ⟨rfl, rfl, by decide⟩

/-- Claim C3: the default error encoder writes status 200 and an envelope
whose error carries the Error() string of the error as message and code
InternalError unless the error exposes the ErrorCoder capability (then its
reported code is used), and every header exposed through the Headerer
capability is copied onto the response. -/
theorem c3_default_error_encoder (ctx : Ctx) (err : ErrVal) :
    (DefaultErrorEncoder ctx err).status = 200 ∧
    (DefaultErrorEncoder ctx err).body =
      HttpBody.json
        { jsonrpc := Version,
          error := some { code := err.errorCode.getD InternalError,
                          message := err.msg } } ∧
    (err.errorCode = none →
      (DefaultErrorEncoder ctx err).body =
        HttpBody.json
          { jsonrpc := Version,
            error := some { code := InternalError, message := err.msg } }) ∧
    (∀ hh, err.headers = some hh → (hh.map Prod.fst).Nodup →
      ∀ p ∈ hh, hdrGet (DefaultErrorEncoder ctx err).headers p.1 = some p.2) := by
  rw [defaultErrorEncoder_eq]
  refine ⟨rfl, rfl, ?_, ?_⟩
  · intro hc
    rw [hc]
    rfl
  · intro hh hherr nd p hp
    rw [hherr]
    exact copyHeaders_get _ hh p hp nd

/-- Witness for c3_default_error_encoder at a concrete error exposing both
optional capabilities. -/
theorem c3_default_error_encoder_witness :
    (DefaultErrorEncoder {} errCoded).status = 200 ∧
    (DefaultErrorEncoder {} errCoded).body =
      HttpBody.json
        { jsonrpc := Version,
          error := some { code := (418 : Int), message := "teapot" } } ∧
    hdrGet (DefaultErrorEncoder {} errCoded).headers "X-Debug" = some "1" :=
  ⟨(c3_default_error_encoder {} errCoded).1,
   (c3_default_error_encoder {} errCoded).2.1,
   (c3_default_error_encoder {} errCoded).2.2.2 [("X-Debug", "1")] rfl (by decide)
     ("X-Debug", "1") (by decide)⟩

/-- Claim C4: a well-formed POST naming an unregistered method yields, with
the default error encoder, HTTP 200 and an envelope whose error code is
MethodNotFoundError (-32601) and whose message contains the unresolved
method name. -/
theorem c4_method_not_found {a b : Type} (sm : List (String × Service a b))
    (r : HttpReq) (req : Request) (hm : r.method = "POST") (hb : r.body = some req)
    (hl : smLookup sm req.method = none) :
    (ServeHTTP (NewServer sm []) r).1.status = 200 ∧
    (ServeHTTP (NewServer sm []) r).1.body =
      HttpBody.json
        { jsonrpc := Version,
          error := some { code := MethodNotFoundError,
                          message := "Method " ++ req.method ++ " was not found." } } ∧
    (∃ pre post, "Method " ++ req.method ++ " was not found." = pre ++ req.method ++ post) := by
  rw [serveHTTP_post_eq _ _ hm]
  simp only [NewServer, List.foldl_nil, hb, hl]
  exact ⟨rfl, rfl, ⟨"Method ", " was not found.", rfl⟩⟩

/-- Witness for c4_method_not_found: the add request against an empty
registry. -/
theorem c4_method_not_found_witness :
    (ServeHTTP (NewServer ([] : List (String × Service Unit Unit)) []) postAdd).1.status = 200 ∧
    (ServeHTTP (NewServer ([] : List (String × Service Unit Unit)) []) postAdd).1.body =
      HttpBody.json
        { jsonrpc := Version,
          error := some { code := MethodNotFoundError,
                          message := "Method " ++ addReq.method ++ " was not found." } } :=
  ⟨(c4_method_not_found [] postAdd addReq rfl rfl rfl).1,
   (c4_method_not_found [] postAdd addReq rfl rfl rfl).2.1⟩

/-- Claim C5: a decode failure stops the endpoint, the after-hooks and the
encode stage; an endpoint failure stops the after-hooks and the encode
stage; every failing stage has its error value returned unmodified and
logged by exactly one logger call; a fully successful run logs nothing;
the NewService default logger is a nop. -/
theorem c5_short_circuit_and_logging {a b : Type} (s : Service a b) (ctx : Ctx)
    (params : RawMessage) :
    (∀ e, s.dec (beforeCtx s ctx) params = .error e →
       ServeJSONRPC s ctx params = ({ err := some e }, [.decodeCall, .logCall e])) ∧
    (∀ req e, s.dec (beforeCtx s ctx) params = .ok req →
       s.e (beforeCtx s ctx) req = .error e →
       ServeJSONRPC s ctx params =
         ({ err := some e }, [.decodeCall, .endpointCall, .logCall e])) ∧
    (∀ req resp e, s.dec (beforeCtx s ctx) params = .ok req →
       s.e (beforeCtx s ctx) req = .ok resp →
       s.enc (afterState s ctx).1 resp = .error e →
       ServeJSONRPC s ctx params =
         ({ err := some e },
          [.decodeCall, .endpointCall, .afterStage, .encodeCall, .logCall e])) ∧
    ((ServeJSONRPC s ctx params).1.err = none →
       ∀ e, Ev.logCall e ∉ (ServeJSONRPC s ctx params).2) ∧
    (∀ (e0 : Ctx → a → Except ErrVal b)
       (dec0 : Ctx → RawMessage → Except ErrVal a)
       (enc0 : Ctx → b → Except ErrVal RawMessage),
       (NewService e0 dec0 enc0 []).logger = NopLogger) ∧
    (∀ e, NopLogger e = []) := by
  refine ⟨?_, ?_, ?_, ?_, fun _ _ _ => rfl, fun _ => rfl⟩
  · intro e hd
    rw [serveJSONRPC_eq]
    simp only [hd]
  · intro req e hd he
    rw [serveJSONRPC_eq]
    simp only [hd, he]
  · intro req resp e hd he hc
    rw [serveJSONRPC_eq]
    simp only [hd, he, hc]
  · intro hnone e
    rw [serveJSONRPC_eq] at hnone ⊢
    rcases except_cases (s.dec (beforeCtx s ctx) params) with ⟨e2, hd⟩ | ⟨req, hd⟩
    · simp only [hd] at hnone
      cases hnone
    · simp only [hd] at hnone ⊢
      rcases except_cases (s.e (beforeCtx s ctx) req) with ⟨e2, he⟩ | ⟨resp, he⟩
      · simp only [he] at hnone
        cases hnone
      · simp only [he] at hnone ⊢
        rcases except_cases (s.enc (afterState s ctx).1 resp) with ⟨e2, hc⟩ | ⟨p, hc⟩
        · simp only [hc] at hnone
          cases hnone
        · simp only [hc]
          simp

/-- Witness for c5_short_circuit_and_logging: a service with a failing
decoder short-circuits with a single log call, and the nop logger records
nothing. -/
theorem c5_short_circuit_and_logging_witness :
    ServeJSONRPC svcDecFail {} "[3, 2]" =
      ({ err := some oof }, [.decodeCall, .logCall oof]) ∧
    NopLogger oof = [] :=
  ⟨(c5_short_circuit_and_logging svcDecFail {} "[3, 2]").1 oof rfl,
   (c5_short_circuit_and_logging svcDecFail {} "[3, 2]").2.2.2.2.2 oof⟩

/-- Claim C6: hooks registered across several ServiceBefore or ServiceAfter
options are concatenated in registration order, the hook runner threads
the pair returned by each hook into the next one, and a context value set
by hook i is observable in the state hook i+1 receives. -/
theorem c6_hook_order_and_threading {a b : Type} :
    (∀ (e0 : Ctx → a → Except ErrVal b)
       (dec0 : Ctx → RawMessage → Except ErrVal a)
       (enc0 : Ctx → b → Except ErrVal RawMessage) (l1 l2 m1 m2 : List Hook),
       (NewService e0 dec0 enc0
         [ServiceBefore l1, ServiceBefore l2, ServiceAfter m1, ServiceAfter m2]).before
           = l1 ++ l2 ∧
       (NewService e0 dec0 enc0
         [ServiceBefore l1, ServiceBefore l2, ServiceAfter m1, ServiceAfter m2]).after
           = m1 ++ m2) ∧
    (∀ (hooks : List Hook) (i : Nat) (hi : i < hooks.length) (ch : Ctx × Headers),
       runHooks (hooks.take (i+1)) ch =
         hooks.get ⟨i, hi⟩ (runHooks (hooks.take i) ch).1 (runHooks (hooks.take i) ch).2) ∧
    (∀ (hooks : List Hook) (i : Nat) (hi : i < hooks.length) (ch : Ctx × Headers)
       (k : String) (v : Nat),
       hooks.get ⟨i, hi⟩ = (fun c h => (c.withValue k v, h)) →
       ((runHooks (hooks.take (i+1)) ch).1).value k = some v) := by
  refine ⟨?_, runHooks_take_succ, ?_⟩
  · intro e0 dec0 enc0 l1 l2 m1 m2
    constructor
    · show ([] : List Hook) ++ l1 ++ l2 = l1 ++ l2
      simp
    · show ([] : List Hook) ++ m1 ++ m2 = m1 ++ m2
      simp
  · intro hooks i hi ch k v hg
    rw [runHooks_take_succ hooks i hi ch, hg]
    simp [Ctx.withValue, Ctx.value, List.find?]

/-- Witness for c6_hook_order_and_threading: two before-hook option lists
are concatenated in order, and the value stored by the first hook is
visible in the state fed to the second. -/
theorem c6_hook_order_and_threading_witness :
    ((runHooks ([hookSet1, hookNop].take (0+1)) (({} : Ctx), emptyHeaders)).1).value "one"
      = some 1 ∧
    (NewService (fun (_ : Ctx) (_ : Unit) => (Except.ok () : Except ErrVal Unit))
      (fun _ _ => Except.ok ()) (fun _ _ => Except.ok "[]")
      [ServiceBefore [hookSet1], ServiceBefore [hookNop],
       ServiceAfter [hookNop], ServiceAfter [hookSet1]]).before = [hookSet1] ++ [hookNop] :=
  ⟨(@c6_hook_order_and_threading Unit Unit).2.2 [hookSet1, hookNop] 0 (by decide)
      ({}, emptyHeaders) "one" 1 rfl,
   ((@c6_hook_order_and_threading Unit Unit).1 (fun _ _ => Except.ok ())
      (fun _ _ => Except.ok ()) (fun _ _ => Except.ok "[]")
      [hookSet1] [hookNop] [hookNop] [hookSet1]).1⟩

/-- Claim C7: a non-POST request is answered with a plain-text 405
(Content-Type text/plain), no pipeline event runs, and the outcome depends
neither on the registry nor on the request body. -/
theorem c7_non_post {a b : Type} (s : Server a b) (r : HttpReq)
    (hm : r.method ≠ "POST") :
    ServeHTTP s r =
      ({ status := 405,
         headers := hdrSet emptyHeaders "Content-Type" "text/plain; charset=utf-8",
         body := .text "405 must POST\n" }, []) ∧
    (∀ (s2 : Server a b) (body2 : Option Request),
       ServeHTTP s2 { r with body := body2 } = ServeHTTP s r) := by
  refine ⟨serveHTTP_not_post s r hm, ?_⟩
  intro s2 body2
  rw [serveHTTP_not_post s r hm, serveHTTP_not_post s2 { r with body := body2 } hm]

/-- Witness for c7_non_post at a GET request: the 405 result, independent of
registry and body. -/
theorem c7_non_post_witness :
    ServeHTTP (NewServer smOk []) getReq =
      ({ status := 405,
         headers := hdrSet emptyHeaders "Content-Type" "text/plain; charset=utf-8",
         body := .text "405 must POST\n" }, []) ∧
    ServeHTTP (NewServer ([] : List (String × Service Unit Unit)) [])
        { getReq with body := some addReq } = ServeHTTP (NewServer smOk []) getReq :=
  ⟨(c7_non_post (NewServer smOk []) getReq (by decide)).1,
   (c7_non_post (NewServer smOk []) getReq (by decide)).2
     (NewServer [] []) (some addReq)⟩

/-- Claim C2: every JSON-RPC envelope the server (with the default error
encoder) writes has exactly one of result/error populated: result and no
error exactly when the whole pipeline succeeded, error and no result
exactly when it failed. -/
theorem c2_envelope_exactly_one {a b : Type} (sm : List (String × Service a b))
    (r : HttpReq) (env : Response)
    (hj : (ServeHTTP (NewServer sm []) r).1.body = HttpBody.json env) :
    ((env.result.isSome ∧ env.error = none) ↔ pipelineSucceeds sm r = true) ∧
    ((env.error.isSome ∧ env.result = none) ↔ pipelineSucceeds sm r = false) := by
  by_cases hm : r.method = "POST"
  · rw [serveHTTP_post_eq _ _ hm] at hj
    simp only [NewServer, List.foldl_nil] at hj
    unfold pipelineSucceeds
    rcases Option.eq_none_or_eq_some r.body with hb | ⟨req, hb⟩
    · simp only [hb, defaultErrorEncoder_eq] at hj
      simp only [hb]
      have henv := HttpBody.json.inj hj
      subst henv
      simp
    · simp only [hb] at hj ⊢
      rcases Option.eq_none_or_eq_some (smLookup sm req.method) with hl | ⟨srv, hl⟩
      · simp only [hl, defaultErrorEncoder_eq] at hj
        simp only [hl]
        have henv := HttpBody.json.inj hj
        subst henv
        simp
      · simp only [hl] at hj ⊢
        rcases Option.eq_none_or_eq_some ((ServeJSONRPC srv (reqCtx r) req.params).1.err)
          with he | ⟨e, he⟩
        · rcases serveJSONRPC_ok_shape srv (reqCtx r) req.params he with ⟨p, hshape⟩
          simp only [he] at hj ⊢
          rw [hshape] at hj
          simp only [EncodeJSONResponse] at hj
          have henv := HttpBody.json.inj hj
          subst henv
          simp
        · simp only [he, defaultErrorEncoder_eq] at hj
          simp only [he]
          have henv := HttpBody.json.inj hj
          subst henv
          simp
  · rw [serveHTTP_not_post _ _ hm] at hj
    simp at hj

/-- Witness for c2_envelope_exactly_one at the successful add request:
result present, error absent. -/
theorem c2_envelope_exactly_one_witness :
    ((okEnv.result.isSome ∧ okEnv.error = none) ↔ pipelineSucceeds smOk postAdd = true) ∧
    ((okEnv.error.isSome ∧ okEnv.result = none) ↔ pipelineSucceeds smOk postAdd = false) :=
  c2_envelope_exactly_one smOk postAdd okEnv rfl

/-- Claim C8: a fully successful ServeJSONRPC run returns the encoder
output together with the outbound header set the after-hooks produced
starting from a fresh empty set, the decode and invoke stages running in
the context built by the before-hooks from the inbound headers taken from
the context (or an empty set when the context carries none). -/
theorem c8_success_returns_params_and_headers {a b : Type} (s : Service a b)
    (ctx : Ctx) (params p : RawMessage) (hs : Headers) (tr : List Ev)
    (hok : ServeJSONRPC s ctx params =
      ({ resp := some p, respHeaders := some hs, err := none }, tr)) :
    hs = (afterState s ctx).2 ∧
    beforeCtx s ctx = (runHooks s.before (ctx, (HeaderFromContext ctx).getD emptyHeaders)).1 ∧
    afterState s ctx = runHooks s.after (beforeCtx s ctx, emptyHeaders) ∧
    (∃ req resp, s.dec (beforeCtx s ctx) params = .ok req ∧
       s.e (beforeCtx s ctx) req = .ok resp ∧
       s.enc (afterState s ctx).1 resp = .ok p) := by
  rw [serveJSONRPC_eq] at hok
  rcases except_cases (s.dec (beforeCtx s ctx) params) with ⟨e2, hd⟩ | ⟨req, hd⟩
  · simp only [hd] at hok
    simp at hok
  · simp only [hd] at hok
    rcases except_cases (s.e (beforeCtx s ctx) req) with ⟨e2, he⟩ | ⟨resp, he⟩
    · simp only [he] at hok
      simp at hok
    · simp only [he] at hok
      rcases except_cases (s.enc (afterState s ctx).1 resp) with ⟨e2, hc⟩ | ⟨p2, hc⟩
      · simp only [hc] at hok
        simp at hok
      · simp only [hc] at hok
        have h1 := congrArg (fun x => x.1.resp) hok
        have h2 := congrArg (fun x => x.1.respHeaders) hok
        simp at h1 h2
        refine ⟨h2.symm, rfl, rfl, req, resp, hd, he, ?_⟩
        rw [hc, h1]

/-- Witness for c8_success_returns_params_and_headers: an after-hook sets
an outbound header starting from the fresh empty set, and the returned
header set is exactly that one. -/
theorem c8_success_returns_params_and_headers_witness :
    ([("X-Out", "1")] : Headers) = (afterState svcHdr {}).2 ∧
    afterState svcHdr {} = runHooks svcHdr.after (beforeCtx svcHdr {}, emptyHeaders) :=
  ⟨(c8_success_returns_params_and_headers svcHdr {} "x" "[]" [("X-Out", "1")]
      [.decodeCall, .endpointCall, .afterStage, .encodeCall] rfl).1,
   (c8_success_returns_params_and_headers svcHdr {} "x" "[]" [("X-Out", "1")]
      [.decodeCall, .endpointCall, .afterStage, .encodeCall] rfl).2.2.1⟩

/-- Claim C9: the success envelope is built without populating its id field
from the inbound request id (every envelope written by the server with the
default encoder has an empty id). -/
theorem c9_id_not_echoed {a b : Type} (sm : List (String × Service a b))
    (r : HttpReq) (req : Request) (env : Response)
    (hb : r.body = some req)
    (hj : (ServeHTTP (NewServer sm []) r).1.body = HttpBody.json env)
    (_hsucc : env.error = none) :
    env.id = none ∧ ∀ i, req.id = some i → ¬ env.id = some i := by
  have hid : env.id = none := by
    by_cases hm : r.method = "POST"
    · rw [serveHTTP_post_eq _ _ hm] at hj
      simp only [NewServer, List.foldl_nil, hb] at hj
      rcases Option.eq_none_or_eq_some (smLookup sm req.method) with hl | ⟨srv, hl⟩
      · simp only [hl, defaultErrorEncoder_eq] at hj
        have henv := HttpBody.json.inj hj
        rw [← henv]
      · simp only [hl] at hj
        rcases Option.eq_none_or_eq_some ((ServeJSONRPC srv (reqCtx r) req.params).1.err)
          with he | ⟨e, he⟩
        · simp only [he, EncodeJSONResponse] at hj
          have henv := HttpBody.json.inj hj
          rw [← henv]
        · simp only [he, defaultErrorEncoder_eq] at hj
          have henv := HttpBody.json.inj hj
          rw [← henv]
    · rw [serveHTTP_not_post _ _ hm] at hj
      simp at hj
  refine ⟨hid, fun i hri hcontra => ?_⟩
  rw [hid] at hcontra
  cases hcontra

/-- Witness for c9_id_not_echoed: the add request carries id 1 but the
success envelope id stays empty. -/
theorem c9_id_not_echoed_witness :
    okEnv.id = none ∧ ¬ okEnv.id = some (ReqId.num 1) :=
  ⟨(c9_id_not_echoed smOk postAdd addReq okEnv rfl rfl rfl).1,
   (c9_id_not_echoed smOk postAdd addReq okEnv rfl rfl rfl).2 (ReqId.num 1) rfl⟩

/-- Claim C10: any pipeline stage failure makes ServeJSONRPC return nil for
both the response params and the outbound header set, and (with the default
error encoder and an error without the Headerer capability) the HTTP error
response carries only the Content-Type header, so headers set by after-hooks
are never written to the client. -/
theorem c10_failure_discards_params_and_headers {a b : Type} (s : Service a b)
    (ctx : Ctx) (params : RawMessage) :
    (∀ e, (ServeJSONRPC s ctx params).1.err = some e →
       (ServeJSONRPC s ctx params).1.resp = none ∧
       (ServeJSONRPC s ctx params).1.respHeaders = none) ∧
    (∀ (sm : List (String × Service a b)) (r : HttpReq) (req : Request)
       (srv : Service a b) (e : ErrVal),
       r.method = "POST" → r.body = some req → smLookup sm req.method = some srv →
       (ServeJSONRPC srv (reqCtx r) req.params).1.err = some e →
       e.headers = none →
       (ServeHTTP (NewServer sm []) r).1.headers =
         hdrSet emptyHeaders "Content-Type" ContentType ∧
       (∀ k, k ≠ "Content-Type" →
          hdrGet (ServeHTTP (NewServer sm []) r).1.headers k = none)) := by
  constructor
  · intro e he
    rw [serveJSONRPC_err_shape s ctx params e he]
    exact ⟨rfl, rfl⟩
  · intro sm r req srv e hm hb hl he hh
    rw [serveHTTP_post_eq _ _ hm]
    simp only [NewServer, List.foldl_nil, hb, hl, he, defaultErrorEncoder_eq, hh]
    constructor
    · trivial
    · intro k hk
      rw [hdrGet_set_ne emptyHeaders "Content-Type" ContentType k hk]
      rfl

/-- Witness for c10_failure_discards_params_and_headers: the encoder fails
after an after-hook set an outbound header; the return is nil/nil/err and
the written response does not carry that header. -/
theorem c10_failure_discards_params_and_headers_witness :
    ((ServeJSONRPC svcEncFail {} "x").1.resp = none ∧
     (ServeJSONRPC svcEncFail {} "x").1.respHeaders = none) ∧
    hdrGet (ServeHTTP (NewServer smEncFail []) postAdd).1.headers "X-Out" = none :=
  ⟨(c10_failure_discards_params_and_headers svcEncFail {} "x").1 oof rfl,
   ((c10_failure_discards_params_and_headers svcEncFail {} "x").2 smEncFail postAdd addReq
      svcEncFail oof rfl rfl rfl rfl rfl).2 "X-Out" (by decide)⟩

end KitJsonRpc
